import Mathlib

/-!
Shallow embedding of the clash-detection core of the GraphQL IFC endpoint
(`app/services/geometry_service.py`, `app/services/wkt_clash_service.py`,
`app/resolvers/ifc_resolvers.py`).

Python floats are modelled as rationals (`ℚ`); exceptions are modelled with
`Except String`/`Option`; the OpenCASCADE solid kernel is modelled by finite
sets of unit cells together with an environment carrying the (possibly noisy)
volume-integration function; the Shapely 2D layer is modelled by a structure
of region operations satisfying the two facts the code relies on
(the empty region is empty, empty regions have zero area, intersection is
symmetric as a set operation).
-/

set_option maxHeartbeats 1000000

attribute [local semireducible] Rat.add Rat.mul Rat.sub Rat.inv

instance {ε α : Type} [DecidableEq ε] [DecidableEq α] : DecidableEq (Except ε α) := fun x y =>
  match x, y with
  | .ok a, .ok b =>
    if h : a = b then .isTrue (by rw [h]) else .isFalse (by simp [h])
  | .error e, .error f =>
    if h : e = f then .isTrue (by rw [h]) else .isFalse (by simp [h])
  | .ok _, .error _ => .isFalse (by simp)
  | .error _, .ok _ => .isFalse (by simp)

namespace ClashCore

/-! ### Rounding (`_round`, Python `round`) -/

/-- Python `round` to an integer: round half to even (banker's rounding). -/
def roundHalfEven (q : ℚ) : ℤ :=
  let n : ℤ := ⌊q⌋
  let frac : ℚ := q - n
  if frac < 1/2 then n
  else if 1/2 < frac then n + 1
  else if n % 2 = 0 then n else n + 1

/-- Python `round(x, dp)` on our rational model of floats. -/
def pyRound (x : ℚ) (dp : ℕ) : ℚ :=
  (roundHalfEven (x * 10 ^ dp) : ℚ) / 10 ^ dp

/-- `_EPS = 1e-12` from `geometry_service.py`. -/
def EPS : ℚ := 1 / 10 ^ 12

/-- Python `abs`. -/
def absQ (x : ℚ) : ℚ := if x < 0 then -x else x

/-- Python `max` (two arguments). -/
def maxQ (a b : ℚ) : ℚ := if a < b then b else a

/-- Python `min` (two arguments). -/
def minQ (a b : ℚ) : ℚ := if b < a then b else a

/-- `geometry_service._round`: round with tiny-noise clamp
(`if abs(x) < _EPS: return 0.0; return round(x, dp)`). -/
def roundClamp (x : ℚ) (dp : ℕ) : ℚ :=
  if absQ x < EPS then 0 else pyRound x dp

/-! ### OpenCASCADE solids, modelled as finite sets of unit cells -/

/-- A unit cell of the discrete solid model (cell `(i,j,k)` stands for the
unit cube with min corner `(i,j,k)`). -/
abbrev Cell := ℤ × ℤ × ℤ

/-- Model of a `TopoDS_Shape` solid: a finite set of unit cells. -/
abbrev Solid := Finset Cell

/-- Environment carrying the OCC facts the code depends on at module scope:
whether the optional bounding-box helper `brepbndlib_Add` imported, and the
volume integrator `brepgprop.VolumeProperties` (numeric, may return noise). -/
structure GeomEnv where
  bboxAddAvailable : Bool
  massOf : Solid → ℚ

def cellX (c : Cell) : ℤ := c.1
def cellY (c : Cell) : ℤ := c.2.1
def cellZ (c : Cell) : ℤ := c.2.2

/-- `_bbox_disjoint`: fast AABB cull.  `if _bbox_add is None: return False`;
otherwise build both boxes and return `b1.IsOut(b2)`.  In the cell model a
box spans `[min, max+1]` on each axis; `IsOut` is true iff the closed boxes
share no point (a void box is out of everything). -/
def bbox_disjoint (avail : Bool) (s1 s2 : Solid) : Bool :=
  if avail then
    if h1 : s1.Nonempty then
      if h2 : s2.Nonempty then
        decide (s1.sup' h1 cellX + 1 < s2.inf' h2 cellX)
          || decide (s2.sup' h2 cellX + 1 < s1.inf' h1 cellX)
          || decide (s1.sup' h1 cellY + 1 < s2.inf' h2 cellY)
          || decide (s2.sup' h2 cellY + 1 < s1.inf' h1 cellY)
          || decide (s1.sup' h1 cellZ + 1 < s2.inf' h2 cellZ)
          || decide (s2.sup' h2 cellZ + 1 < s1.inf' h1 cellZ)
      else true
    else true
  else false

/-! ### IFC model and element resolution (`_get_element`, shape creation) -/

/-- Model of one IFC entity as seen by the clash core: its numeric step id,
optional `GlobalId`, IFC type name, and the two shape-construction outcomes
(`create_shape` with default settings, and the retry with
`disable-opening-subtractions`); `none` models a raised exception. -/
structure IfcElement where
  numId : ℕ
  gid : Option String
  ifcType : String
  shapeNormal : Option Solid
  shapeNoOpenings : Option Solid
deriving DecidableEq

/-- Model of an opened `ifcopenshell.file`. -/
structure IfcModel where
  elements : List IfcElement

/-- `model.by_id`: lookup by numeric step id (`None` when absent). -/
def byId (m : IfcModel) (i : ℤ) : Option IfcElement :=
  m.elements.find? (fun e => (e.numId : ℤ) = i)

/-- `model.by_guid` followed by the `GlobalId` scan fallback: both amount to
the first element whose `GlobalId` equals the reference. -/
def byGuid (m : IfcModel) (g : String) : Option IfcElement :=
  m.elements.find? (fun e => e.gid = some g)

/-- An element reference: a Python `int` or a string. -/
abbrev ElementRef := Int ⊕ String

def isSpaceChar (c : Char) : Bool :=
  c = ' ' || c = '\t' || c = '\n' || c = '\r' || c = '\x0b' || c = '\x0c'

/-- Python `str.strip()` on the character list of a string. -/
def stripChars (l : List Char) : List Char :=
  ((l.dropWhile isSpaceChar).reverse.dropWhile isSpaceChar).reverse

/-- Python `str.isdigit()` (restricted to ASCII digits). -/
def isDigits (l : List Char) : Bool :=
  !l.isEmpty && l.all Char.isDigit

/-- Python `int(...)` on an all-digit character list. -/
def digitsToNat (l : List Char) : ℕ :=
  l.foldl (fun n c => 10 * n + (c.toNat - 48)) 0

/-- `_get_element`: ints go to `by_id`; strings are stripped, `#123` and
`123` forms go to `by_id`, anything else is resolved by `GlobalId`. -/
def get_element (m : IfcModel) : ElementRef → Option IfcElement
  | .inl i => byId m i
  | .inr s =>
    let r := stripChars s.data
    if (match r with | '#' :: rest => isDigits rest | _ => false) then
      byId m (digitsToNat (r.drop 1))
    else if isDigits r then
      byId m (digitsToNat r)
    else
      byGuid m (String.mk r)

/-- `_create_shape_with_fallback`: try normal settings, then retry with
opening subtractions disabled. -/
def create_shape_with_fallback (el : IfcElement) : Option Solid :=
  el.shapeNormal <|> el.shapeNoOpenings

def refStr : ElementRef → String
  | .inl i => toString i
  | .inr s => s

/-- `_topods_for_element`: open the file, resolve the element
(raise `ValueError` when not found), build its exact shape (exceptions from
both attempts propagate). -/
def topods_for_element (m : IfcModel) (ref : ElementRef) : Except String Solid :=
  match get_element m ref with
  | none => .error ("Element '" ++ refStr ref ++ "' not found")
  | some el =>
    match create_shape_with_fallback el with
    | none => .error ("create_shape failed for element '" ++ refStr ref ++ "'")
    | some s => .ok s

/-- `clash_between`: resolve both shapes, AABB cull, else boolean common
solid, volume integral, clamp negatives, round at 6 decimals. -/
def clash_between (env : GeomEnv) (m : IfcModel) (a b : ElementRef) : Except String ℚ :=
  match topods_for_element m a with
  | .error e => .error e
  | .ok sa =>
    match topods_for_element m b with
    | .error e => .error e
    | .ok sb =>
      if bbox_disjoint env.bboxAddAvailable sa sb then .ok 0
      else .ok (roundClamp (maxQ 0 (env.massOf (sa ∩ sb))) 6)

/-! ### Batch 3D sweep (`resolve_detect_clashes`) -/

/-- One row of the `detectClashes` result. -/
structure ClashRow where
  element1 : String
  element2 : String
  intersectionVolume : ℚ
deriving DecidableEq

/-- The curated structural type list of `resolve_detect_clashes`. -/
def structuralTypes : List String :=
  ["IfcWall", "IfcSlab", "IfcBeam", "IfcColumn", "IfcFooting", "IfcStair"]

def byType (m : IfcModel) (t : String) : List IfcElement :=
  m.elements.filter (fun e => e.ifcType = t)

/-- The guid-collection loop: keep truthy `GlobalId`s not seen before. -/
def collectGuids (seen : List String) : List (Option String) → List String
  | [] => []
  | none :: rest => collectGuids seen rest
  | some g :: rest =>
    if g = "" ∨ g ∈ seen then collectGuids seen rest
    else g :: collectGuids (g :: seen) rest

def candidateGuids (m : IfcModel) : List String :=
  collectGuids [] (structuralTypes.flatMap (fun t => (byType m t).map (·.gid)))

/-- `itertools.combinations(guids, 2)` in iteration order. -/
def pairsList : List String → List (String × String)
  | [] => []
  | x :: xs => xs.map (fun y => (x, y)) ++ pairsList xs

/-- The pair loop of `resolve_detect_clashes`: compute each pair's volume
(the first exception aborts the fold) and keep rows with volume `> 0`. -/
def clashSweep (env : GeomEnv) (m : IfcModel) : List (String × String) → Except String (List ClashRow)
  | [] => .ok []
  | (a, b) :: rest =>
    match clash_between env m (.inr a) (.inr b) with
    | .error e => .error e
    | .ok vol =>
      match clashSweep env m rest with
      | .error e => .error e
      | .ok tail => .ok (if 0 < vol then ⟨a, b, vol⟩ :: tail else tail)

/-- `resolve_detect_clashes` (the `try` body and its single `except`, which
converts any exception into one `GraphQLError`); the role gate and the
file-existence check sit outside the embedded fragment. -/
def resolve_detect_clashes (env : GeomEnv) (m : IfcModel) : Except String (List ClashRow) :=
  match clashSweep env m (pairsList (candidateGuids m)) with
  | .error e => .error ("detectClashes failed: " ++ e)
  | .ok rows => .ok rows

/-! ### The Shapely 2D layer (`wkt_clash_service`) -/

/-- Model of the Shapely polygon library as used by `wkt_clash_service`:
a type of planar regions with the operations the code calls.  `bufferOp`
returning `none` models `buffer` raising; `wktOf` returning `none` models
`.wkt` raising.  The three laws are facts of Shapely the code relies on:
the empty polygon is empty, an empty region has zero area, and geometric
intersection is symmetric. -/
structure Shapely2D where
  Region : Type
  emptyR : Region
  isEmpty : Region → Bool
  isValid : Region → Bool
  polygonOfRing : List (ℚ × ℚ) → Region
  unaryUnion : List Region → Region
  bufferOp : Region → ℚ → Option Region
  interR : Region → Region → Region
  areaR : Region → ℚ
  wktOf : Region → Option String
  empty_isEmpty : isEmpty emptyR = true
  area_empty : ∀ r, isEmpty r = true → areaR r = 0
  inter_comm : ∀ r s, interR r s = interR s r

/-- A 3D vertex `[x, y, z]`. -/
abbrev Vtx := ℚ × ℚ × ℚ

def vtxX (p : Vtx) : ℚ := p.1
def vtxY (p : Vtx) : ℚ := p.2.1
def vtxZ (p : Vtx) : ℚ := p.2.2

/-- Drop the Z coordinate of one vertex. -/
def dropZ (p : Vtx) : ℚ × ℚ := (vtxX p, vtxY p)

/-- `_project_triangle_xy`: drop Z; fewer than 3 distinct XY points makes a
degenerate facet, returned as the empty `Polygon()`. -/
def project_triangle_xy (S : Shapely2D) (tri3d : List Vtx) : S.Region :=
  let ring := tri3d.map dropZ
  if ring.dedup.length < 3 then S.emptyR
  else S.polygonOfRing ring

/-- The triangle list built by `_footprint_polygon`'s loop: project each
face's three vertices, keep non-empty valid polygons. -/
def validTris (S : Shapely2D) (verts : List Vtx) (faces : List (ℕ × ℕ × ℕ)) : List S.Region :=
  (faces.map (fun f =>
    project_triangle_xy S
      [verts.getD f.1 (0, 0, 0), verts.getD f.2.1 (0, 0, 0), verts.getD f.2.2 (0, 0, 0)])).filter
    (fun p => !S.isEmpty p && S.isValid p)

/-- The `merged.buffer(eps).buffer(-eps)` pass (one `try:` block). -/
def bufferPass (S : Shapely2D) (r : S.Region) (eps : ℚ) : Option S.Region :=
  (S.bufferOp r eps).bind (fun m1 => S.bufferOp m1 (-eps))

/-- `_footprint_polygon`: union of the triangle projections, then the tiny
stitching buffer with fallback to the un-buffered union on failure (the
source binds `tris` and `merged` as locals; here the shared subexpressions
are written out). -/
def footprint_polygon (S : Shapely2D) (verts : List Vtx) (faces : List (ℕ × ℕ × ℕ))
    (buffer_eps : ℚ) : S.Region :=
  if (validTris S verts faces).isEmpty then S.emptyR
  else if 0 < buffer_eps then
    match bufferPass S (S.unaryUnion (validTris S verts faces)) buffer_eps with
    | some m2 => m2
    | none => S.unaryUnion (validTris S verts faces)
  else S.unaryUnion (validTris S verts faces)

/-- `_z_range`: min/max of the Z coordinates (`[0.0]` when there are none). -/
def z_range (verts : List Vtx) : ℚ × ℚ :=
  match verts.map vtxZ with
  | [] => (0, 0)
  | z :: zs => (zs.foldl minQ z, zs.foldl maxQ z)

/-! ### Plan-clash scanner (`detect_plan_clashes`) -/

/-- What `wkt_clash_service` reads off one element: `GlobalId` (`none`
models a missing attribute) and the world-coordinate mesh. -/
structure PlanElement where
  gid : Option String
  verts : List Vtx
  faces : List (ℕ × ℕ × ℕ)

/-- The opened model as the plan scanner sees it: elements grouped by
IFC type name. -/
structure PlanModel where
  byType : String → List PlanElement

/-- The per-element record `_prep` builds (dict with id, zmin, zmax, fp). -/
structure ElemData (S : Shapely2D) where
  id : String
  zmin : ℚ
  zmax : ℚ
  fp : S.Region

/-- `_prep`: skip falsy `GlobalId`s and empty meshes, else build z-range
and footprint (with the default `buffer_eps = 1e-4`). -/
def prep (S : Shapely2D) (e : PlanElement) : Option (ElemData S) :=
  match e.gid with
  | none => none
  | some g =>
    if g = "" then none
    else if e.verts.isEmpty || e.faces.isEmpty then none
    else
      let zr := z_range e.verts
      some ⟨g, zr.1, zr.2, footprint_polygon S e.verts e.faces (1 / 10 ^ 4)⟩

/-- Python-dict insertion: update the value in place when the key exists,
else append at the end. -/
def upsert {α : Type} (l : List (String × α)) (k : String) (v : α) : List (String × α) :=
  if l.any (fun p => p.1 = k) then
    l.map (fun p => if p.1 = k then (k, v) else p)
  else l ++ [(k, v)]

/-- One step of the `a_data[d["id"]] = d` loop: keep prepared elements
whose footprint is non-empty. -/
def prepStep (S : Shapely2D) (acc : List (String × ElemData S)) (e : PlanElement) :
    List (String × ElemData S) :=
  match prep S e with
  | none => acc
  | some d => if S.isEmpty d.fp then acc else upsert acc d.id d

/-- The `a_data` / `b_data` dictionaries, in insertion order. -/
def prepAll (S : Shapely2D) (m : PlanModel) (t : String) : List (String × ElemData S) :=
  (m.byType t).foldl (prepStep S) []

/-- One row of the plan-clash result (`wkt = none` models the key being
absent, `some none` models an explicit `null`). -/
structure PlanClashResult where
  aId : String
  bId : String
  area : ℚ
  wkt : Option (Option String)
deriving DecidableEq

/-- The body of the pair loop after the vertical cull: intersect the two
footprints and emit a row when the area is strictly positive. -/
def pairPostCull (S : Shapely2D) (return_wkt : Bool) (aid : String) (A : ElemData S)
    (bid : String) (B : ElemData S) : Option PlanClashResult :=
  let inter := S.interR A.fp B.fp
  if S.isEmpty inter then none
  else
    let area := S.areaR inter
    if 0 < area then
      some ⟨aid, bid, pyRound area 6, if return_wkt then some (S.wktOf inter) else none⟩
    else none

/-- One iteration of the pair loop: vertical cull with tolerance, then the
2D intersection step. -/
def pairResult (S : Shapely2D) (z_tolerance : ℚ) (return_wkt : Bool) (aid : String)
    (A : ElemData S) (bid : String) (B : ElemData S) : Option PlanClashResult :=
  if A.zmax + z_tolerance < B.zmin ∨ B.zmax + z_tolerance < A.zmin then none
  else pairPostCull S return_wkt aid A bid B

/-- The nested `for aid, A in a_data.items(): for bid, B in b_data.items()`
loop, appending emitted rows in iteration order. -/
def planScan (S : Shapely2D) (z_tolerance : ℚ) (return_wkt : Bool)
    (bData : List (String × ElemData S)) : List (String × ElemData S) → List PlanClashResult
  | [] => []
  | a :: as_ =>
    bData.filterMap (fun b => pairResult S z_tolerance return_wkt a.1 a.2 b.1 b.2)
      ++ planScan S z_tolerance return_wkt bData as_

/-- `detect_plan_clashes`: precompute both dictionaries, return `[]` when
either is empty, else run the pairwise scan. -/
def detect_plan_clashes (S : Shapely2D) (m : PlanModel) (a_ifc_type b_ifc_type : String)
    (z_tolerance : ℚ) (return_wkt : Bool) : List PlanClashResult :=
  let aData := prepAll S m a_ifc_type
  let bData := prepAll S m b_ifc_type
  if aData.isEmpty || bData.isEmpty then []
  else planScan S z_tolerance return_wkt bData aData

/-! ### Concrete instances used for witnesses and counterexamples -/

/-- Standard geometry environment: the bounding-box helper imported and the
volume integral is exact on the cell model (one unit of volume per cell). -/
def envStd : GeomEnv := ⟨true, fun s => (s.card : ℚ)⟩

/-- A concrete executable instance of the Shapely layer: a region is a
finite set of lattice points, each carrying area `1e-8`; `buffer` is exact
(identity) and never raises. -/
def cellS : Shapely2D where
  Region := Finset (ℤ × ℤ)
  emptyR := ∅
  isEmpty r := decide (r = ∅)
  isValid _ := true
  polygonOfRing ring := (ring.map (fun p => (⌊p.1⌋, ⌊p.2⌋))).toFinset
  unaryUnion l := l.foldl (fun a b => a ∪ b) ∅
  bufferOp r _ := some r
  interR r s := r ∩ s
  areaR r := (r.card : ℚ) / 10 ^ 8
  wktOf _ := some "GEOMETRYCOLLECTION"
  empty_isEmpty := by decide
  area_empty := fun r h => by
    have : r = ∅ := of_decide_eq_true h
    subst this
    simp
  inter_comm := fun r s => Finset.inter_comm r s

/-- A Shapely-layer instance identical to `cellS` except that `buffer`
always raises; used to exercise the fallback branch of
`_footprint_polygon`. -/
def cellSNoBuffer : Shapely2D :=
  { cellS with bufferOp := fun _ _ => none }

instance : DecidableEq cellS.Region := fun a b =>
  (inferInstance : DecidableEq (Finset (ℤ × ℤ))) a b

instance : DecidableEq cellSNoBuffer.Region := fun a b =>
  (inferInstance : DecidableEq (Finset (ℤ × ℤ))) a b

instance : DecidableEq (ElemData cellS) := fun a b =>
  decidable_of_iff (a.id = b.id ∧ a.zmin = b.zmin ∧ a.zmax = b.zmax ∧ a.fp = b.fp)
    (by cases a; cases b; simp)

/-- Geometry environment whose volume integrator always reports `-5`
(extreme numerical noise), for exercising the negative-volume clamp. -/
def envNeg : GeomEnv := ⟨true, fun _ => -5⟩

/-- A wall whose shape construction succeeds: one unit cell at the origin. -/
def eltA : IfcElement := ⟨1, some "G1", "IfcWall", some {(0, 0, 0)}, none⟩

/-- A wall whose shape construction fails even after the fallback. -/
def eltBroken : IfcElement := ⟨2, some "G2", "IfcWall", none, none⟩

/-- A second resolvable wall overlapping `eltA`. -/
def eltB : IfcElement := ⟨3, some "G3", "IfcWall", some {(0, 0, 0)}, none⟩

/-- A resolvable wall far away from the origin. -/
def eltFar : IfcElement := ⟨4, some "G4", "IfcWall", some {(9, 9, 9)}, none⟩

/-- Candidate set with one broken element between two overlapping ones. -/
def mdlBatch : IfcModel := ⟨[eltA, eltBroken, eltB]⟩

/-- Two overlapping resolvable walls. -/
def mdlPair : IfcModel := ⟨[eltA, eltB]⟩

/-- Two distant resolvable walls (bounding boxes disjoint). -/
def mdlFar : IfcModel := ⟨[eltA, eltFar]⟩

/-- A plan element of type `TA`: one triangle in the plane `z = 0`. -/
def triA : PlanElement := ⟨some "A", [(0, 0, 0), (3, 0, 0), (0, 3, 0)], [(0, 1, 2)]⟩

/-- A plan element of type `TB` whose footprint meets `triA`'s in a single
lattice point (raw intersection area `1e-8` in the cell model). -/
def triB : PlanElement := ⟨some "B", [(0, 0, 0), (0, -3, 0), (-3, 0, 0)], [(0, 1, 2)]⟩

def mdlPlanTiny : PlanModel :=
  ⟨fun t => if t = "TA" then [triA] else if t = "TB" then [triB] else []⟩

/-- Two overlapping plan elements of the same type `T`. -/
def plP : PlanElement := ⟨some "P", [(0, 0, 0), (4, 0, 0), (0, 4, 0)], [(0, 1, 2)]⟩

def plQ : PlanElement := ⟨some "Q", [(0, 0, 0), (4, 0, 0), (0, -4, 0)], [(0, 1, 2)]⟩

def mdlPlanSame : PlanModel := ⟨fun t => if t = "T" then [plP, plQ] else []⟩

/-- The prepared record `_prep` builds for `plP` under `cellS`. -/
def pdP : ElemData cellS := ⟨"P", 0, 0, ({(0, 0), (4, 0), (0, 4)} : Finset (ℤ × ℤ))⟩

/-- The prepared record `_prep` builds for `plQ` under `cellS`. -/
def pdQ : ElemData cellS := ⟨"Q", 0, 0, ({(0, 0), (4, 0), (0, -4)} : Finset (ℤ × ℤ))⟩

/-- Precomputed pair data: a low element with footprint `{(0,0)}`. -/
def edLow : ElemData cellS := ⟨"a", 0, 1, ({((0 : ℤ), (0 : ℤ))} : Finset (ℤ × ℤ))⟩

/-- Precomputed pair data: a high element with the same footprint. -/
def edHigh : ElemData cellS := ⟨"b", 5, 6, ({((0 : ℤ), (0 : ℤ))} : Finset (ℤ × ℤ))⟩

/-- Mesh with one degenerate facet (two XY-coincident vertices) and one
proper facet. -/
def vertsW : List Vtx := [(0, 0, 0), (0, 0, 1), (2, 3, 0), (4, 5, 0)]

def facesW : List (ℕ × ℕ × ℕ) := [(0, 1, 2), (0, 2, 3)]

/-- Face list exposing only the degenerate facet. -/
def facesDeg : List (ℕ × ℕ × ℕ) := [(0, 1, 2)]

/-! ### Helper lemmas -/

theorem minQ_le_left (a b : ℚ) : minQ a b ≤ a := by
  unfold minQ; split
  · exact le_of_lt (by assumption)
  · exact le_refl a

theorem left_le_maxQ (a b : ℚ) : a ≤ maxQ a b := by
  unfold maxQ; split
  · exact le_of_lt (by assumption)
  · exact le_refl a

theorem foldl_minQ_le (l : List ℚ) : ∀ a : ℚ, l.foldl minQ a ≤ a := by
  induction l with
  | nil => intro a; exact le_refl a
  | cons x xs ih =>
    intro a
    exact le_trans (ih (minQ a x)) (minQ_le_left a x)

theorem le_foldl_maxQ (l : List ℚ) : ∀ a : ℚ, a ≤ l.foldl maxQ a := by
  induction l with
  | nil => intro a; exact le_refl a
  | cons x xs ih =>
    intro a
    exact le_trans (left_le_maxQ a x) (ih (maxQ a x))

theorem z_range_le (vs : List Vtx) : (z_range vs).1 ≤ (z_range vs).2 := by
  unfold z_range
  cases h : vs.map vtxZ with
  | nil => exact le_refl 0
  | cons z zs =>
    exact le_trans (foldl_minQ_le zs z) (le_foldl_maxQ zs z)

theorem prep_some_zle {S : Shapely2D} {e : PlanElement} {d : ElemData S}
    (h : prep S e = some d) : d.zmin ≤ d.zmax := by
  unfold prep at h
  split at h
  · cases h
  · split at h
    · cases h
    · split at h
      · cases h
      · cases h
        exact z_range_le e.verts

theorem mem_upsert {α : Type} {l : List (String × α)} {k : String} {v : α} {p : String × α}
    (h : p ∈ upsert l k v) : p = (k, v) ∨ p ∈ l := by
  unfold upsert at h
  split at h
  · rcases List.mem_map.mp h with ⟨q, hq, hqe⟩
    by_cases hk : q.1 = k
    · rw [if_pos hk] at hqe; exact Or.inl hqe.symm
    · rw [if_neg hk] at hqe; exact Or.inr (hqe ▸ hq)
  · rcases List.mem_append.mp h with hl | hr
    · exact Or.inr hl
    · exact Or.inl (List.mem_singleton.mp hr)

theorem mem_foldl_prepStep {S : Shapely2D} (l : List PlanElement) :
    ∀ acc : List (String × ElemData S),
      (∀ p ∈ acc, p.2.zmin ≤ p.2.zmax) →
      ∀ p ∈ l.foldl (prepStep S) acc, p.2.zmin ≤ p.2.zmax := by
  induction l with
  | nil => intro acc hacc p hp; exact hacc p hp
  | cons e es ih =>
    intro acc hacc p hp
    refine ih (prepStep S acc e) ?_ p hp
    intro q hq
    unfold prepStep at hq
    cases hpe : prep S e with
    | none => rw [hpe] at hq; exact hacc q hq
    | some d =>
      rw [hpe] at hq
      dsimp only at hq
      by_cases hie : S.isEmpty d.fp = true
      · rw [if_pos hie] at hq; exact hacc q hq
      · rw [if_neg hie] at hq
        rcases mem_upsert hq with rfl | hmem
        · exact prep_some_zle hpe
        · exact hacc q hmem

theorem prepAll_zle {S : Shapely2D} {m : PlanModel} {t : String} {p : String × ElemData S}
    (h : p ∈ prepAll S m t) : p.2.zmin ≤ p.2.zmax :=
  mem_foldl_prepStep (m.byType t) [] (by intro q hq; cases hq) p h

theorem roundHalfEven_nonneg {q : ℚ} (h : 0 ≤ q) : 0 ≤ roundHalfEven q := by
  have hf : (0 : ℤ) ≤ ⌊q⌋ := Int.floor_nonneg.mpr h
  unfold roundHalfEven
  dsimp only
  split
  · exact hf
  split
  · omega
  split
  · exact hf
  · omega

theorem pyRound_nonneg {x : ℚ} (h : 0 ≤ x) (dp : ℕ) : 0 ≤ pyRound x dp := by
  unfold pyRound
  have hnum : (0 : ℚ) ≤ (roundHalfEven (x * 10 ^ dp) : ℚ) := by
    exact_mod_cast roundHalfEven_nonneg (mul_nonneg h (by positivity))
  positivity

theorem roundClamp_nonneg {x : ℚ} (h : 0 ≤ x) (dp : ℕ) : 0 ≤ roundClamp x dp := by
  unfold roundClamp
  split
  · exact le_refl 0
  · exact pyRound_nonneg h dp

theorem absQ_of_nonneg {x : ℚ} (h : 0 ≤ x) : absQ x = x := by
  unfold absQ
  rw [if_neg (not_lt.mpr h)]

theorem maxQ_zero_nonneg (x : ℚ) : 0 ≤ maxQ 0 x := by
  unfold maxQ; split
  · exact le_of_lt (by assumption)
  · exact le_refl 0

theorem bbox_disjoint_comm (avail : Bool) (s1 s2 : Solid) :
    bbox_disjoint avail s1 s2 = bbox_disjoint avail s2 s1 := by
  have hb : ∀ a b c d e f : Bool, (a || b || c || d || e || f) = (b || a || d || c || f || e) := by
    decide
  unfold bbox_disjoint
  cases avail
  · rfl
  · by_cases h1 : s1.Nonempty <;> by_cases h2 : s2.Nonempty <;> simp [h1, h2]
    exact hb _ _ _ _ _ _

theorem pairResult_some {S : Shapely2D} {zt : ℚ} {w : Bool} {aid bid : String}
    {A B : ElemData S} {r : PlanClashResult}
    (h : pairResult S zt w aid A bid B = some r) :
    ¬(A.zmax + zt < B.zmin ∨ B.zmax + zt < A.zmin) ∧
      0 < S.areaR (S.interR A.fp B.fp) ∧
      S.isEmpty (S.interR A.fp B.fp) = false ∧
      r = ⟨aid, bid, pyRound (S.areaR (S.interR A.fp B.fp)) 6,
           if w then some (S.wktOf (S.interR A.fp B.fp)) else none⟩ := by
  unfold pairResult pairPostCull at h
  split at h
  · cases h
  · refine ⟨by assumption, ?_⟩
    dsimp only at h
    split at h
    · cases h
    · split at h
      · exact ⟨by assumption, by simp_all, (Option.some.inj h).symm⟩
      · cases h

theorem pairResult_of {S : Shapely2D} (zt : ℚ) (w : Bool) (aid bid : String)
    (A B : ElemData S)
    (hcull : ¬(A.zmax + zt < B.zmin ∨ B.zmax + zt < A.zmin))
    (hpos : 0 < S.areaR (S.interR A.fp B.fp)) :
    pairResult S zt w aid A bid B =
      some ⟨aid, bid, pyRound (S.areaR (S.interR A.fp B.fp)) 6,
            if w then some (S.wktOf (S.interR A.fp B.fp)) else none⟩ := by
  have hne : S.isEmpty (S.interR A.fp B.fp) = false := by
    cases hemp : S.isEmpty (S.interR A.fp B.fp)
    · rfl
    · rw [S.area_empty _ hemp] at hpos
      exact absurd hpos (lt_irrefl 0)
  unfold pairResult pairPostCull
  rw [if_neg hcull]
  dsimp only
  rw [hne]
  simp only [Bool.false_eq_true, if_false, if_pos hpos]

theorem mem_planScan_intro {S : Shapely2D} {zt : ℚ} {w : Bool}
    {bData : List (String × ElemData S)} {b : String × ElemData S} {r : PlanClashResult} :
    ∀ {aData : List (String × ElemData S)} {a : String × ElemData S},
      a ∈ aData → b ∈ bData → pairResult S zt w a.1 a.2 b.1 b.2 = some r →
      r ∈ planScan S zt w bData aData := by
  intro aData
  induction aData with
  | nil => intro a ha; cases ha
  | cons x xs ih =>
    intro a ha hb hp
    rcases List.mem_cons.mp ha with rfl | hmem
    · exact List.mem_append.mpr (Or.inl (List.mem_filterMap.mpr ⟨b, hb, hp⟩))
    · exact List.mem_append.mpr (Or.inr (ih hmem hb hp))

theorem mem_planScan_elim {S : Shapely2D} {zt : ℚ} {w : Bool}
    {bData : List (String × ElemData S)} {r : PlanClashResult} :
    ∀ {aData : List (String × ElemData S)}, r ∈ planScan S zt w bData aData →
      ∃ a ∈ aData, ∃ b ∈ bData, pairResult S zt w a.1 a.2 b.1 b.2 = some r := by
  intro aData
  induction aData with
  | nil => intro h; cases h
  | cons x xs ih =>
    intro h
    rcases List.mem_append.mp h with hl | hr
    · rcases List.mem_filterMap.mp hl with ⟨b, hb, hp⟩
      exact ⟨x, List.mem_cons_self x xs, b, hb, hp⟩
    · rcases ih hr with ⟨a, ha, b, hb, hp⟩
      exact ⟨a, List.mem_cons_of_mem x ha, b, hb, hp⟩

theorem filterMap_sublist {α β : Type} (f g : α → Option β)
    (h : ∀ x, f x = none ∨ f x = g x) :
    ∀ l : List α, List.Sublist (l.filterMap f) (l.filterMap g) := by
  intro l
  induction l with
  | nil => simp
  | cons x xs ih =>
    rw [List.filterMap_cons, List.filterMap_cons]
    rcases h x with hx | hx
    · rw [hx]
      cases hgx : g x with
      | none => exact ih
      | some b => exact List.Sublist.cons b ih
    · rw [hx]
      cases hgx : g x with
      | none => exact ih
      | some b => exact List.Sublist.cons₂ b ih

theorem planScan_sublist {S : Shapely2D} {w : Bool} {t1 t2 : ℚ}
    (bData : List (String × ElemData S))
    (hpt : ∀ (a b : String × ElemData S),
      pairResult S t1 w a.1 a.2 b.1 b.2 = none ∨
        pairResult S t1 w a.1 a.2 b.1 b.2 = pairResult S t2 w a.1 a.2 b.1 b.2) :
    ∀ aData : List (String × ElemData S),
      List.Sublist (planScan S t1 w bData aData) (planScan S t2 w bData aData) := by
  intro aData
  induction aData with
  | nil => simp [planScan]
  | cons x xs ih =>
    exact List.Sublist.append (filterMap_sublist _ _ (fun b => hpt x b) bData) ih

theorem pairResult_mono {S : Shapely2D} {w : Bool} {t1 t2 : ℚ} (hle : t1 ≤ t2)
    (a b : String × ElemData S) :
    pairResult S t1 w a.1 a.2 b.1 b.2 = none ∨
      pairResult S t1 w a.1 a.2 b.1 b.2 = pairResult S t2 w a.1 a.2 b.1 b.2 := by
  by_cases hc : a.2.zmax + t1 < b.2.zmin ∨ b.2.zmax + t1 < a.2.zmin
  · exact Or.inl (by unfold pairResult; rw [if_pos hc])
  · have hc2 : ¬(a.2.zmax + t2 < b.2.zmin ∨ b.2.zmax + t2 < a.2.zmin) := by
      intro h2
      refine hc ?_
      rcases h2 with h2 | h2
      · exact Or.inl (lt_of_le_of_lt (by linarith) h2)
      · exact Or.inr (lt_of_le_of_lt (by linarith) h2)
    refine Or.inr ?_
    unfold pairResult
    rw [if_neg hc, if_neg hc2]

theorem clash_between_ok_ok {env : GeomEnv} {m : IfcModel} {a b : ElementRef}
    {sa sb : Solid} (ha : topods_for_element m a = .ok sa)
    (hb : topods_for_element m b = .ok sb) :
    clash_between env m a b =
      if bbox_disjoint env.bboxAddAvailable sa sb then .ok 0
      else .ok (roundClamp (maxQ 0 (env.massOf (sa ∩ sb))) 6) := by
  unfold clash_between
  rw [ha, hb]

theorem clash_between_error_left {env : GeomEnv} {m : IfcModel} {a b : ElementRef} {e : String}
    (ha : topods_for_element m a = .error e) : clash_between env m a b = .error e := by
  unfold clash_between
  rw [ha]

theorem clash_between_error_right {env : GeomEnv} {m : IfcModel} {a b : ElementRef}
    {sa : Solid} {e : String} (ha : topods_for_element m a = .ok sa)
    (hb : topods_for_element m b = .error e) : clash_between env m a b = .error e := by
  unfold clash_between
  rw [ha, hb]

/-- C2: `clash_between` propagates resolution failures: if either element
reference cannot be resolved to a shape (element not found, or shape
construction fails even after the fallback), the call returns the error
rather than any number; conversely a numeric result implies both elements
resolved, so `0.0` is never returned for an unresolvable element. -/
theorem C2_clash_between_error_propagation :
    ∀ (env : GeomEnv) (m : IfcModel) (a b : ElementRef),
      (∀ e, topods_for_element m a = .error e → clash_between env m a b = .error e) ∧
      (∀ sa e, topods_for_element m a = .ok sa → topods_for_element m b = .error e →
        clash_between env m a b = .error e) ∧
      (∀ r, clash_between env m a b = .ok r →
        ∃ sa sb, topods_for_element m a = .ok sa ∧ topods_for_element m b = .ok sb) := by
  refine fun env m a b => ⟨?_, ?_, ?_⟩
  · intro e he
    exact clash_between_error_left he
  · intro sa e ha hb
    exact clash_between_error_right ha hb
  · intro r hr
    cases ha : topods_for_element m a with
    | error e => rw [clash_between_error_left ha] at hr; cases hr
    | ok sa =>
      cases hb : topods_for_element m b with
      | error e => rw [clash_between_error_right ha hb] at hr; cases hr
      | ok sb => exact ⟨sa, sb, rfl, rfl⟩

/-- C2 witness: in a concrete model where `G2`'s shape construction fails,
`clash_between` surfaces the error (applied through the theorem). -/
theorem C2_witness :
    clash_between envStd mdlBatch (.inr "G1") (.inr "G2") =
      .error "create_shape failed for element 'G2'" :=
  (C2_clash_between_error_propagation envStd mdlBatch (.inr "G1") (.inr "G2")).2.1
    {(0, 0, 0)} "create_shape failed for element 'G2'" (by decide) (by decide)

/-- C5: when the bounding boxes of the two resolved shapes are disjoint,
`clash_between` returns `0.0` for every volume integrator (so the boolean
common step is never consulted); and with the bbox helper unavailable,
`_bbox_disjoint` reports `False` for all shapes (culling degrades to
"never disjoint"). -/
theorem C5_bbox_cull :
    (∀ (avail : Bool) (f : Solid → ℚ) (m : IfcModel) (a b : ElementRef) (sa sb : Solid),
      topods_for_element m a = .ok sa → topods_for_element m b = .ok sb →
      bbox_disjoint avail sa sb = true →
      clash_between ⟨avail, f⟩ m a b = .ok 0) ∧
    (∀ s1 s2 : Solid, bbox_disjoint false s1 s2 = false) := by
  constructor
  · intro avail f m a b sa sb ha hb hd
    unfold clash_between
    rw [ha, hb]
    simp only [hd, if_true]
  · intro s1 s2
    rfl

/-- C5 witness: two distant walls give volume `0` under the exact cell
integrator, and the degraded cull never reports disjoint. -/
theorem C5_witness :
    clash_between envStd mdlFar (.inr "G1") (.inr "G4") = .ok 0 ∧
      bbox_disjoint false {((0 : ℤ), (0 : ℤ), (0 : ℤ))} {((5 : ℤ), (5 : ℤ), (5 : ℤ))} = false :=
  ⟨C5_bbox_cull.1 true (fun s => (s.card : ℚ)) mdlFar (.inr "G1") (.inr "G4")
      {(0, 0, 0)} {(9, 9, 9)} (by decide) (by decide) (by decide),
    C5_bbox_cull.2 _ _⟩

/-- C6: `clash_between` results are never negative; when both shapes
resolve and the boxes are not disjoint the result is exactly
`_round(max(0.0, volume), 6)`, so a negative integrated volume is clamped
to `0`, any magnitude below `1e-12` becomes exactly `0` before rounding,
a raw volume of `1e-13` yields exactly `0`, and a raw volume of `0.0005`
is reported as itself rounded to 6 decimal places. -/
theorem C6_clamp_and_round :
    (∀ (env : GeomEnv) (m : IfcModel) (a b : ElementRef) (r : ℚ),
      clash_between env m a b = .ok r → 0 ≤ r) ∧
    (∀ (env : GeomEnv) (m : IfcModel) (a b : ElementRef) (sa sb : Solid),
      topods_for_element m a = .ok sa → topods_for_element m b = .ok sb →
      bbox_disjoint env.bboxAddAvailable sa sb = false →
      clash_between env m a b = .ok (roundClamp (maxQ 0 (env.massOf (sa ∩ sb))) 6) ∧
        (env.massOf (sa ∩ sb) < 0 → clash_between env m a b = .ok 0) ∧
        (absQ (env.massOf (sa ∩ sb)) < EPS → clash_between env m a b = .ok 0)) ∧
    roundClamp (maxQ 0 (1 / 10 ^ 13)) 6 = 0 ∧
    roundClamp (maxQ 0 (1 / 2000)) 6 = 1 / 2000 := by
  have hmax0 : ∀ x : ℚ, ¬(0 < x) → maxQ 0 x = 0 := by
    intro x hx; unfold maxQ; rw [if_neg hx]
  have hrc0 : roundClamp 0 6 = 0 := by decide
  refine ⟨?_, ?_, by decide, by decide⟩
  · intro env m a b r hr
    cases ha : topods_for_element m a with
    | error e =>
      rw [clash_between_error_left ha] at hr
      cases hr
    | ok sa =>
      cases hb : topods_for_element m b with
      | error e =>
        rw [clash_between_error_right ha hb] at hr
        cases hr
      | ok sb =>
        rw [clash_between_ok_ok ha hb] at hr
        split at hr
        · injection hr with h; rw [h.symm]
        · injection hr with h
          rw [h.symm]
          exact roundClamp_nonneg (maxQ_zero_nonneg _) 6
  · intro env m a b sa sb ha hb hd
    have hmain : clash_between env m a b = .ok (roundClamp (maxQ 0 (env.massOf (sa ∩ sb))) 6) := by
      rw [clash_between_ok_ok ha hb]
      simp only [hd, Bool.false_eq_true, if_false]
    refine ⟨hmain, ?_, ?_⟩
    · intro hneg
      rw [hmain, hmax0 _ (not_lt.mpr (le_of_lt hneg)), hrc0]
    · intro habs
      by_cases hp : 0 < env.massOf (sa ∩ sb)
      · have hm : maxQ 0 (env.massOf (sa ∩ sb)) = env.massOf (sa ∩ sb) := by
          unfold maxQ; rw [if_pos hp]
        rw [hmain, hm]
        unfold roundClamp
        rw [if_pos habs]
      · rw [hmain, hmax0 _ hp, hrc0]

/-- C6 witness: with a volume integrator that always reports `-5`, the
overlapping pair still yields `0.0` (negative volume clamped). -/
theorem C6_witness :
    clash_between envNeg mdlPair (.inr "G1") (.inr "G3") = .ok 0 :=
  ((C6_clamp_and_round.2.1 envNeg mdlPair (.inr "G1") (.inr "G3")
      {(0, 0, 0)} {(0, 0, 0)} (by decide) (by decide) (by decide)).2.1 (by decide))

/-- C8: the pairwise 3D clash volume is symmetric — for resolvable
elements `a` and `b` of the same file, `clash_between(file, a, b)` equals
`clash_between(file, b, a)` (the bounding-box cull and the boolean common
solid are both symmetric in the two shapes). -/
theorem C8_clash_between_symm :
    ∀ (env : GeomEnv) (m : IfcModel) (a b : ElementRef) (sa sb : Solid),
      topods_for_element m a = .ok sa → topods_for_element m b = .ok sb →
      clash_between env m a b = clash_between env m b a := by
  intro env m a b sa sb ha hb
  rw [clash_between_ok_ok ha hb, clash_between_ok_ok hb ha,
    bbox_disjoint_comm env.bboxAddAvailable sa sb, Finset.inter_comm sa sb]

/-- C8 witness: symmetry applied to the concrete overlapping pair. -/
theorem C8_witness :
    clash_between envStd mdlPair (.inr "G1") (.inr "G3") =
      clash_between envStd mdlPair (.inr "G3") (.inr "G1") :=
  C8_clash_between_symm envStd mdlPair (.inr "G1") (.inr "G3")
    {(0, 0, 0)} {(0, 0, 0)} (by decide) (by decide)

theorem clashSweep_error (env : GeomEnv) (m : IfcModel) :
    ∀ (l : List (String × String)) (p : String × String), p ∈ l →
      (∃ e, clash_between env m (.inr p.1) (.inr p.2) = .error e) →
      ∃ e2, clashSweep env m l = .error e2 := by
  intro l
  induction l with
  | nil => intro p hp; cases hp
  | cons q rest ih =>
    intro p hp he
    obtain ⟨a, b⟩ := q
    rcases List.mem_cons.mp hp with rfl | hmem
    · obtain ⟨e, he⟩ := he
      exact ⟨e, by unfold clashSweep; rw [he]⟩
    · cases hq : clash_between env m (.inr a) (.inr b) with
      | error e => exact ⟨e, by unfold clashSweep; rw [hq]⟩
      | ok vol =>
        obtain ⟨e2, he2⟩ := ih p hmem he
        exact ⟨e2, by unfold clashSweep; rw [hq, he2]⟩

/-- C1 counterexample: in a candidate set `[G1, G2, G3]` where `G2`'s shape
cannot be constructed but `G1` and `G3` clash with volume `1`, the batch
sweep does not return the `G1`/`G3` row — the single `except` around the
whole pair loop converts the first failure into one `GraphQLError`, so the
entire run aborts with no partial results. -/
theorem C1_counterexample :
    resolve_detect_clashes envStd mdlBatch =
        .error "detectClashes failed: create_shape failed for element 'G2'" ∧
      clash_between envStd mdlBatch (.inr "G1") (.inr "G3") = .ok 1 := by
  constructor
  · decide
  · decide

/-- C1 (amended): a resolution failure on any candidate pair aborts the
entire 3D clash sweep — if some pair in the enumerated combinations fails
to resolve, `resolve_detect_clashes` returns a `GraphQLError` (and hence
no partial result rows), instead of continuing with the remaining pairs. -/
theorem C1_sweep_aborts_on_any_failure :
    ∀ (env : GeomEnv) (m : IfcModel) (a b : String),
      (a, b) ∈ pairsList (candidateGuids m) →
      ∀ e, clash_between env m (.inr a) (.inr b) = .error e →
      ∃ e2, resolve_detect_clashes env m = .error ("detectClashes failed: " ++ e2) := by
  intro env m a b hmem e herr
  obtain ⟨e2, he2⟩ := clashSweep_error env m (pairsList (candidateGuids m)) (a, b) hmem ⟨e, herr⟩
  refine ⟨e2, ?_⟩
  unfold resolve_detect_clashes
  rw [he2]

/-- C1 witness: the amended abort property applied to the concrete model
with the broken element `G2`. -/
theorem C1_witness :
    ∃ e2, resolve_detect_clashes envStd mdlBatch =
      .error ("detectClashes failed: " ++ e2) :=
  C1_sweep_aborts_on_any_failure envStd mdlBatch "G1" "G2" (by decide)
    "create_shape failed for element 'G2'" (by decide)

theorem detect_eq_scan {S : Shapely2D} {m : PlanModel} {aT bT : String} {zt : ℚ} {w : Bool}
    (ha : prepAll S m aT ≠ []) (hb : prepAll S m bT ≠ []) :
    detect_plan_clashes S m aT bT zt w =
      planScan S zt w (prepAll S m bT) (prepAll S m aT) := by
  unfold detect_plan_clashes
  simp [List.isEmpty_eq_false.mpr ha, List.isEmpty_eq_false.mpr hb]

theorem mem_detect_elim {S : Shapely2D} {m : PlanModel} {aT bT : String} {zt : ℚ} {w : Bool}
    {r : PlanClashResult} (h : r ∈ detect_plan_clashes S m aT bT zt w) :
    ∃ a ∈ prepAll S m aT, ∃ b ∈ prepAll S m bT,
      pairResult S zt w a.1 a.2 b.1 b.2 = some r := by
  unfold detect_plan_clashes at h
  by_cases hg : ((prepAll S m aT).isEmpty || (prepAll S m bT).isEmpty) = true
  · rw [if_pos hg] at h; cases h
  · rw [if_neg hg] at h
    exact mem_planScan_elim h

theorem mem_detect_intro {S : Shapely2D} {m : PlanModel} {aT bT : String} {zt : ℚ} {w : Bool}
    {r : PlanClashResult} {a b : String × ElemData S} (ha : a ∈ prepAll S m aT)
    (hb : b ∈ prepAll S m bT) (hp : pairResult S zt w a.1 a.2 b.1 b.2 = some r) :
    r ∈ detect_plan_clashes S m aT bT zt w := by
  rw [detect_eq_scan (List.ne_nil_of_mem ha) (List.ne_nil_of_mem hb)]
  exact mem_planScan_intro ha hb hp

/-- C4: the vertical cull of the plan scan skips a precomputed pair — no
2D intersection computed, no result emitted, whatever the two XY
footprints are — exactly when `a.zmax + zTolerance < b.zmin` or
`b.zmax + zTolerance < a.zmin`; when the condition fails the scan proceeds
to the 2D intersection step. -/
theorem C4_vertical_cull :
    ∀ (S : Shapely2D) (zt : ℚ) (w : Bool) (aid bid : String) (A B : ElemData S),
      ((A.zmax + zt < B.zmin ∨ B.zmax + zt < A.zmin) →
        ∀ fa fb : S.Region,
          pairResult S zt w aid { A with fp := fa } bid { B with fp := fb } = none) ∧
      (¬(A.zmax + zt < B.zmin ∨ B.zmax + zt < A.zmin) →
        pairResult S zt w aid A bid B = pairPostCull S w aid A bid B) := by
  intro S zt w aid bid A B
  constructor
  · intro hc fa fb
    exact if_pos hc
  · intro hc
    exact if_neg hc

/-- C4 witness: a pair with identical XY footprints but Z ranges `[0,1]`
and `[5,6]` is culled at `zTolerance = 0.2`. -/
theorem C4_witness :
    pairResult cellS (1 / 5) false "a" edLow "b" edHigh = none :=
  (C4_vertical_cull cellS (1 / 5) false "a" "b" edLow edHigh).1 (by decide)
    edLow.fp edHigh.fp

/-- C3 counterexample: `detect_plan_clashes` has no caller-configurable
area tolerance — a pair whose raw intersection area is `1e-8` (not greater
than the claimed `~1e-6` default) is still emitted, with reported area
`round(1e-8, 6) = 0.0`, which is not strictly greater than `1e-6`. -/
theorem C3_counterexample :
    detect_plan_clashes cellS mdlPlanTiny "TA" "TB" (1 / 5) false =
        [⟨"A", "B", 0, none⟩] ∧
      ¬((0 : ℚ) > 1 / 10 ^ 6) :=
  ⟨by decide, by decide⟩

/-- C3 (amended): every emitted `PlanClashResult` comes from a pair whose
raw intersection area is strictly greater than `0` (the fixed threshold in
the code — there is no caller-configurable area tolerance), and its
reported area is that raw area rounded to 6 decimal places. -/
theorem C3_area_positive_and_rounded :
    ∀ (S : Shapely2D) (m : PlanModel) (aT bT : String) (zt : ℚ) (w : Bool)
      (r : PlanClashResult), r ∈ detect_plan_clashes S m aT bT zt w →
      ∃ a ∈ prepAll S m aT, ∃ b ∈ prepAll S m bT,
        r.aId = a.1 ∧ r.bId = b.1 ∧
        0 < S.areaR (S.interR a.2.fp b.2.fp) ∧
        r.area = pyRound (S.areaR (S.interR a.2.fp b.2.fp)) 6 := by
  intro S m aT bT zt w r h
  obtain ⟨a, ha, b, hb, hp⟩ := mem_detect_elim h
  obtain ⟨-, hpos, -, hre⟩ := pairResult_some hp
  refine ⟨a, ha, b, hb, ?_, ?_, hpos, ?_⟩ <;> rw [hre]

/-- C3 witness: the amended property applied to the emitted row of the
concrete `1e-8`-overlap model. -/
theorem C3_witness :
    ∃ a ∈ prepAll cellS mdlPlanTiny "TA", ∃ b ∈ prepAll cellS mdlPlanTiny "TB",
      (⟨"A", "B", 0, none⟩ : PlanClashResult).aId = a.1 ∧
        (⟨"A", "B", 0, none⟩ : PlanClashResult).bId = b.1 ∧
        0 < cellS.areaR (cellS.interR a.2.fp b.2.fp) ∧
        (⟨"A", "B", 0, none⟩ : PlanClashResult).area =
          pyRound (cellS.areaR (cellS.interR a.2.fp b.2.fp)) 6 :=
  C3_area_positive_and_rounded cellS mdlPlanTiny "TA" "TB" (1 / 5) false
    ⟨"A", "B", 0, none⟩ (by decide)

/-- C7: `detect_plan_clashes` is monotone in `zTolerance`: for `t1 ≤ t2`
the result list at `t1` is a sublist of the result list at `t2` (same
input, same types), so every clash reported at `t1` is reported at `t2`
and reducing the tolerance (e.g. to `0`) never increases the number of
reported plan clashes. -/
theorem C7_zTolerance_monotone :
    ∀ (S : Shapely2D) (m : PlanModel) (aT bT : String) (w : Bool) (t1 t2 : ℚ), t1 ≤ t2 →
      List.Sublist (detect_plan_clashes S m aT bT t1 w) (detect_plan_clashes S m aT bT t2 w) ∧
      (∀ r, r ∈ detect_plan_clashes S m aT bT t1 w →
        r ∈ detect_plan_clashes S m aT bT t2 w) ∧
      (detect_plan_clashes S m aT bT t1 w).length ≤
        (detect_plan_clashes S m aT bT t2 w).length := by
  intro S m aT bT w t1 t2 hle
  have hsub : List.Sublist (detect_plan_clashes S m aT bT t1 w)
      (detect_plan_clashes S m aT bT t2 w) := by
    by_cases hga : prepAll S m aT = []
    · unfold detect_plan_clashes
      rw [hga]
      simp
    · by_cases hgb : prepAll S m bT = []
      · unfold detect_plan_clashes
        rw [hgb]
        simp
      · rw [detect_eq_scan hga hgb, detect_eq_scan hga hgb]
        exact planScan_sublist _ (pairResult_mono hle) _
  exact ⟨hsub, fun r hr => hsub.subset hr, hsub.length_le⟩

/-- C7 witness: monotonicity applied at tolerances `0 ≤ 0.2` on the
concrete model. -/
theorem C7_witness :
    List.Sublist (detect_plan_clashes cellS mdlPlanTiny "TA" "TB" 0 false)
      (detect_plan_clashes cellS mdlPlanTiny "TA" "TB" (1 / 5) false) :=
  (C7_zTolerance_monotone cellS mdlPlanTiny "TA" "TB" false 0 (1 / 5) (by decide)).1

/-- C9: the footprint projector projects triangles to XY by dropping Z,
maps a facet with fewer than 3 distinct XY points to the empty polygon
(so it is discarded), returns the empty region when no valid triangle
remains, applies the `+1e-4`/`-1e-4` buffer pass to the union of the
valid triangles, and falls back to the un-buffered union when the buffer
pass raises. -/
theorem C9_footprint_pipeline :
    ∀ (S : Shapely2D) (verts : List Vtx) (faces : List (ℕ × ℕ × ℕ)),
      (∀ tri : List Vtx, (tri.map dropZ).dedup.length < 3 →
        project_triangle_xy S tri = S.emptyR) ∧
      (∀ tri : List Vtx, ¬((tri.map dropZ).dedup.length < 3) →
        project_triangle_xy S tri = S.polygonOfRing (tri.map dropZ)) ∧
      (validTris S verts faces = [] →
        footprint_polygon S verts faces (1 / 10 ^ 4) = S.emptyR) ∧
      (∀ m2, validTris S verts faces ≠ [] →
        bufferPass S (S.unaryUnion (validTris S verts faces)) (1 / 10 ^ 4) = some m2 →
        footprint_polygon S verts faces (1 / 10 ^ 4) = m2) ∧
      (validTris S verts faces ≠ [] →
        bufferPass S (S.unaryUnion (validTris S verts faces)) (1 / 10 ^ 4) = none →
        footprint_polygon S verts faces (1 / 10 ^ 4) = S.unaryUnion (validTris S verts faces)) := by
  intro S verts faces
  have h04 : (0 : ℚ) < 1 / 10 ^ 4 := by norm_num
  refine ⟨?_, ?_, ?_, ?_, ?_⟩
  · intro tri hd
    exact if_pos hd
  · intro tri hd
    exact if_neg hd
  · intro hv
    unfold footprint_polygon
    rw [hv]
    rfl
  · intro m2 hne hbuf
    unfold footprint_polygon
    rw [List.isEmpty_eq_false.mpr hne]
    simp only [Bool.false_eq_true, if_false, if_pos h04, hbuf]
  · intro hne hbuf
    unfold footprint_polygon
    rw [List.isEmpty_eq_false.mpr hne]
    simp only [Bool.false_eq_true, if_false, if_pos h04, hbuf]

/-- C9 witness: the pipeline conclusions applied to concrete meshes — a
degenerate facet projects to the empty polygon, a mesh with only that
facet gets an empty footprint, a successful buffer pass returns the
buffered union, and the raising-buffer backend falls back to the
un-buffered union. -/
theorem C9_witness :
    project_triangle_xy cellS [(0, 0, 0), (0, 0, 1), (2, 3, 0)] = cellS.emptyR ∧
      footprint_polygon cellS vertsW facesDeg (1 / 10 ^ 4) = cellS.emptyR ∧
      footprint_polygon cellS vertsW facesW (1 / 10 ^ 4) =
        cellS.unaryUnion (validTris cellS vertsW facesW) ∧
      footprint_polygon cellSNoBuffer vertsW facesW (1 / 10 ^ 4) =
        cellSNoBuffer.unaryUnion (validTris cellSNoBuffer vertsW facesW) :=
  ⟨(C9_footprint_pipeline cellS [] []).1 _ (by decide),
    (C9_footprint_pipeline cellS vertsW facesDeg).2.2.1 (by decide),
    (C9_footprint_pipeline cellS vertsW facesW).2.2.2.1
      (cellS.unaryUnion (validTris cellS vertsW facesW)) (by decide) (by decide),
    (C9_footprint_pipeline cellSNoBuffer vertsW facesW).2.2.2.2 (by decide) (by decide)⟩

/-- C10: when both type arguments name the same IFC type, the A and B
dictionaries are built from the same prepared elements, and the pair loop
does not exclude identical identifiers: a prepared element whose footprint
has positive area is paired with itself (emitting a row whose area is its
own footprint area rounded to 6 places), and every emitted pair row also
appears with the two identifiers swapped. -/
theorem C10_same_type_pairs :
    ∀ (S : Shapely2D) (m : PlanModel) (T : String) (zt : ℚ) (w : Bool), 0 ≤ zt →
      (∀ (aid : String) (A : ElemData S), (aid, A) ∈ prepAll S m T →
        S.interR A.fp A.fp = A.fp → 0 < S.areaR A.fp →
        (⟨aid, aid, pyRound (S.areaR A.fp) 6,
          if w then some (S.wktOf A.fp) else none⟩ : PlanClashResult) ∈
          detect_plan_clashes S m T T zt w) ∧
      (∀ (aid bid : String) (A B : ElemData S) (r : PlanClashResult),
        (aid, A) ∈ prepAll S m T → (bid, B) ∈ prepAll S m T →
        pairResult S zt w aid A bid B = some r →
        r ∈ detect_plan_clashes S m T T zt w ∧
          (⟨bid, aid, r.area, r.wkt⟩ : PlanClashResult) ∈
            detect_plan_clashes S m T T zt w) := by
  intro S m T zt w hzt
  constructor
  · intro aid A hmem hself hpos
    have hz : A.zmin ≤ A.zmax := prepAll_zle hmem
    have hcull : ¬(A.zmax + zt < A.zmin ∨ A.zmax + zt < A.zmin) := by
      intro hor
      rcases hor with h | h <;> linarith
    have hpos' : 0 < S.areaR (S.interR A.fp A.fp) := by rw [hself]; exact hpos
    have hp := pairResult_of zt w aid aid A A hcull hpos'
    rw [hself] at hp
    exact mem_detect_intro hmem hmem hp
  · intro aid bid A B r hma hmb hp
    obtain ⟨hcull, hpos, -, hre⟩ := pairResult_some hp
    have hcull' : ¬(B.zmax + zt < A.zmin ∨ A.zmax + zt < B.zmin) := by
      intro hor
      exact hcull hor.symm
    have hpos' : 0 < S.areaR (S.interR B.fp A.fp) := by
      rw [S.inter_comm B.fp A.fp]
      exact hpos
    have hp' := pairResult_of zt w bid aid B A hcull' hpos'
    refine ⟨mem_detect_intro hma hmb hp, ?_⟩
    have harea : (⟨bid, aid, r.area, r.wkt⟩ : PlanClashResult) =
        ⟨bid, aid, pyRound (S.areaR (S.interR B.fp A.fp)) 6,
          if w then some (S.wktOf (S.interR B.fp A.fp)) else none⟩ := by
      rw [hre, S.inter_comm B.fp A.fp]
    rw [harea]
    exact mem_detect_intro hmb hma hp'

/-- C10 witness: with `aType = bType = "T"` on the concrete two-element
model, the self-pair `(P, P)` is emitted, and the overlapping pair is
emitted in both orders `(P, Q)` and `(Q, P)`. -/
theorem C10_witness :
    (⟨"P", "P", pyRound (cellS.areaR pdP.fp) 6, none⟩ : PlanClashResult) ∈
        detect_plan_clashes cellS mdlPlanSame "T" "T" (1 / 5) false ∧
      (⟨"P", "Q", 0, none⟩ : PlanClashResult) ∈
        detect_plan_clashes cellS mdlPlanSame "T" "T" (1 / 5) false ∧
      (⟨"Q", "P", 0, none⟩ : PlanClashResult) ∈
        detect_plan_clashes cellS mdlPlanSame "T" "T" (1 / 5) false := by
  have h := C10_same_type_pairs cellS mdlPlanSame "T" (1 / 5) false (by decide)
  refine ⟨?_, ?_, ?_⟩
  · exact h.1 "P" pdP (by decide) (by decide) (by decide)
  · exact (h.2 "P" "Q" pdP pdQ ⟨"P", "Q", 0, none⟩ (by decide) (by decide) (by decide)).1
  · exact (h.2 "P" "Q" pdP pdQ ⟨"P", "Q", 0, none⟩ (by decide) (by decide) (by decide)).2

end ClashCore
